import Mathlib

/-!
Verification of `train_chess_model.py` (repository `chess_ai_with_pytorch`).

This file gives a shallow embedding of the program's data model and control
flow and proves or refutes the specification's claims about it.

Modelling conventions:
* Python integers that stay nonnegative in all considered scenarios
  (row indices, chunk sizes, epoch counters) are modelled as `Nat`.
* Fallible Python code is modelled with `Option`: `none` stands for an
  uncaught exception (e.g. `ZeroDivisionError`).
* The CSV table is modelled as its list of data rows (`List α`), one abstract
  row per line after the header line.  Parsing a row into a GPU tensor pair
  (lines 65-74 of the source) maps each row to exactly one sample, in order,
  so samples are identified with the rows they come from.
* `pd.read_csv(path, sep, skiprows=s, nrows=n)` (with the default
  `header='infer'`) skips the first `s` lines of the file, consumes the next
  line as the header, and returns the following `n` lines as data rows.  For
  a file consisting of one header line followed by the data rows, this
  returns `(data.drop s).take n`: for `s = 0` the real header is consumed,
  and for `s ≥ 1` the skipped lines are the header plus data rows
  `0 .. s-2`, and data row `s-1` is consumed as the inferred header.
-/

namespace ChessTrain

/-- Source line 15: `NUMBER_OF_EPOCHS = 300`. -/
def NUMBER_OF_EPOCHS : ℕ := 300

/-- Source line 19: `TRAIN_DATASET_LENGTH = 81`. -/
def TRAIN_DATASET_LENGTH : ℕ := 81

/-- Source line 20: `TEST_DATASET_LENGTH = 100_000`. -/
def TEST_DATASET_LENGTH : ℕ := 100000

/-- Source line 21: `CHUNK_SIZE = 9` (the configured chunk size, stored as
the class attribute `ChessDataset._chunk_size`, line 30). -/
def CHUNK_SIZE : ℕ := 9

/-- The state a `ChessDataset` holds after `__init__` (source lines 43-52):
the requested range, the possibly clamped per-instance chunk size, and the
mode flag `self._is_test_dataset`. -/
structure DatasetCfg where
  start : ℕ
  stop : ℕ
  chunkSize : ℕ
  isTest : Bool
deriving DecidableEq

/-- `ChessDataset.__init__` (source lines 48-51), parametrised by the
configured chunk size `chunkCfg` (= `ChessDataset._chunk_size`):

    if ChessDataset._chunk_size > self._stop_index - self._start_index:
        self._chunk_size = self._stop_index - self._start_index
    self._is_test_dataset = bool((stop - start) // self._chunk_size)

`none` models the `ZeroDivisionError` Python raises in the mode
classification when the clamped chunk size is `0`; `bool(q)` is `q ≠ 0`. -/
def initDataset (chunkCfg start stop : ℕ) : Option DatasetCfg :=
  let size := stop - start
  let cs := if size < chunkCfg then size else chunkCfg
  if cs = 0 then none
  else some ⟨start, stop, cs, size / cs != 0⟩

/-- `pd.read_csv(path, sep='|', skiprows=skiprows, nrows=nrows)` over a table
whose data rows (the lines after the header line) are `data`; see the header
comment for why this is `(data.drop skiprows).take nrows`. -/
def readCsv {α : Type} (data : List α) (skiprows nrows : ℕ) : List α :=
  (data.drop skiprows).take nrows

/-- `ChessDataset._get_gpu_chunk(start, stop)` (source lines 54-76): calls
`pd.read_csv(self._dataset_path, sep='|', skiprows=start, nrows=stop)`
(line 62) and converts each returned row into one `(x, y)` sample, in
order.  Note the source passes `stop` — not `stop - start` — as `nrows`. -/
def getGpuChunk {α : Type} (data : List α) (start stop : ℕ) : List α :=
  readCsv data start stop

/-- The resident test chunk `self._test_chunk` read eagerly at construction
(source line 52); `__iter__` in test mode yields exactly its samples in
order (source lines 96-98). -/
def testChunk {α : Type} (data : List α) (cfg : DatasetCfg) : List α :=
  getGpuChunk data cfg.start cfg.stop

/-- The training-mode branch of `ChessDataset.__iter__` (source lines
99-104):

    num_of_chunks = (stop - start) // self._chunk_size
    for i in range(num_of_chunks):
        gpu_chunk = self._get_gpu_chunk(i * start, i * start + self._chunk_size)
        yield gpu_chunk
-/
def trainModeChunks {α : Type} (data : List α) (cfg : DatasetCfg) : List (List α) :=
  (List.range ((cfg.stop - cfg.start) / cfg.chunkSize)).map
    fun i => getGpuChunk data (i * cfg.start) (i * cfg.start + cfg.chunkSize)

/-- Python's `str` of a nonnegative integer: its decimal digit characters,
most significant first (`Nat.digits 10` lists them least significant
first, hence the reversal). -/
def natDigits (n : ℕ) : List Char :=
  if n = 0 then ['0']
  else ((Nat.digits 10 n).map fun d => Char.ofNat (48 + d)).reverse

/-- The checkpoint file name written for epoch `n` (source line 219):
`f'model_epoch_{epoch_number}.pt'`, modelled as its character list. -/
def cpName (n : ℕ) : List Char :=
  "model_epoch_".data ++ natDigits n ++ ".pt".data

/-- One end-of-epoch evaluation of the overfitting guard (source lines
222-231), acting on the retained history `test_losses`:

    if len(test_losses) > 15:
        counter = 0
        for prev_loss in test_losses[-15:]:
            if prev_loss < epoch_test_loss:
                counter += 1
        if counter == 15:
            raise Exception('Overfitting has begun!')
        else:
            test_losses.append(epoch_test_loss)

`none` models the raised exception; otherwise the (possibly unchanged)
history is returned.  Loss values are abstracted to a linear order. -/
def overfitStep {α : Type} [LinearOrder α] (losses : List α) (current : α) :
    Option (List α) :=
  if 15 < losses.length then
    if ((losses.drop (losses.length - 15)).filter fun p => decide (p < current)).length = 15
    then none
    else some (losses ++ [current])
  else some losses

/-- Tags for the three kinds of lines the program writes to its log file
(source lines 166, 215, 233). -/
inductive LogTag where
  | startTime : LogTag
  | epochLine : ℕ → LogTag
  | stopTime : LogTag
deriving DecidableEq

/-- Observable side effects of a run, in program order: the module-scope
`open` of the log file (line 23), `os.mkdir` of the weights directory
(line 159), log writes, the eager `pd.read_csv` of a dataset's range at
construction (line 52 via line 62, tagged with the `skiprows`/`nrows`
arguments), an epoch's training pass (lines 185-196), an epoch's
validation pass (lines 205-208), and `torch.save` of a checkpoint file
(line 219).  The program contains no operation that deletes or truncates a
checkpoint file, so no such event exists. -/
inductive Ev where
  | openLog : Ev
  | mkdirWeights : Ev
  | logWrite : LogTag → Ev
  | tableRead : ℕ → ℕ → Ev
  | trainPass : ℕ → Ev
  | evalPass : ℕ → Ev
  | checkpointWrite : List Char → Ev
deriving DecidableEq

/-- How a run of `__main__` ends: completing all epochs, one of the two
setup errors (lines 161 and 164), the overfitting exception (line 229), or
the `ZeroDivisionError` from dataset construction (line 51). -/
inductive Outcome where
  | completed : Outcome
  | alreadyTrained : Outcome
  | datasetMissing : Outcome
  | overfitting : Outcome
  | zeroDivision : Outcome
deriving DecidableEq

/-- The events of one loop iteration for epoch `n`, in source order (lines
179-219): training pass, validation pass, the epoch log line, and the
checkpoint write.  All of them precede the overfitting guard (lines
222-231). -/
def epochEvents (n : ℕ) : List Ev :=
  [Ev.trainPass n, Ev.evalPass n, Ev.logWrite (LogTag.epochLine n),
    Ev.checkpointWrite (cpName n)]

/-- The epoch loop (source lines 178-231): given the per-epoch validation
losses `lossOf`, run `k` more epochs starting at epoch number `n` with
retained history `s`.  Returns the emitted events and `some` final history,
or `none` in place of the history if the overfitting guard raised. -/
def epochLoop {α : Type} [LinearOrder α] (lossOf : ℕ → α) :
    ℕ → ℕ → List α → List Ev × Option (List α)
  | 0, _, s => ([], some s)
  | k + 1, n, s =>
    match overfitStep s (lossOf n) with
    | none => (epochEvents n, none)
    | some s2 =>
      let r := epochLoop lossOf k (n + 1) s2
      (epochEvents n ++ r.1, r.2)

/-- The event trace of `k` completed epochs starting at epoch `n`. -/
def epochBlocks : ℕ → ℕ → List Ev
  | _, 0 => []
  | n, k + 1 => epochEvents n ++ epochBlocks (n + 1) k

/-- The checkpoint names written over `k` epochs starting at epoch `n`. -/
def cpList : ℕ → ℕ → List (List Char)
  | _, 0 => []
  | n, k + 1 => cpName n :: cpList (n + 1) k

/-- Selects checkpoint-write events from a trace. -/
def cpOf : Ev → Option (List Char)
  | Ev.checkpointWrite nm => some nm
  | _ => none

/-- The table reads a `ChessDataset` performs at construction: in test
(evaluation) mode it eagerly reads its whole range (source line 52, with
`skiprows = start`, `nrows = stop`); in training mode construction reads
nothing. -/
def dsReadEvents (cfg : DatasetCfg) : List Ev :=
  if cfg.isTest then [Ev.tableRead cfg.start cfg.stop] else []

/-- The `__main__` block (source lines 157-233) as a function of the two
file-system facts it consults (`os.path.exists` of the weights directory
and of the dataset file) and of the per-epoch validation losses `lossOf`
(the numeric behaviour of model and data is external).  In source order:
the module-scope log-file `open` (line 23) precedes everything; the
weights directory is created (line 159) or `FileExistsError` raised (line
161); a missing dataset raises (line 164); the start-time log line is
written (line 166); the two datasets are constructed, eagerly reading
their ranges (lines 168-170); then the epoch loop runs and, if no
exception ends it, the stop-time line is written (line 233). -/
def mainRun {α : Type} [LinearOrder α] (dirExists datasetExists : Bool)
    (lossOf : ℕ → α) : List Ev × Outcome :=
  if dirExists then ([Ev.openLog], Outcome.alreadyTrained)
  else if datasetExists = false then
    ([Ev.openLog, Ev.mkdirWeights], Outcome.datasetMissing)
  else
    match initDataset CHUNK_SIZE 0 TRAIN_DATASET_LENGTH,
        initDataset CHUNK_SIZE TRAIN_DATASET_LENGTH
          (TRAIN_DATASET_LENGTH + TEST_DATASET_LENGTH) with
    | some trainCfg, some evalCfg =>
      let pre := [Ev.openLog, Ev.mkdirWeights, Ev.logWrite LogTag.startTime]
        ++ dsReadEvents trainCfg ++ dsReadEvents evalCfg
      match epochLoop lossOf NUMBER_OF_EPOCHS 1 [] with
      | (evs, some _) => (pre ++ evs ++ [Ev.logWrite LogTag.stopTime], Outcome.completed)
      | (evs, none) => (pre ++ evs, Outcome.overfitting)
    | _, _ =>
      ([Ev.openLog, Ev.mkdirWeights, Ev.logWrite LogTag.startTime], Outcome.zeroDivision)

section Passes

variable {Θ I O L : Type}

/-- The validation pass of one epoch (source lines 202-208): with the
model's learnable parameter state threaded explicitly as `Θ`, the loop
body inside `torch.no_grad()` runs a forward pass (`fwd`, which reads the
parameters and mutates nothing) and accumulates the sample's loss; the
parameter component of the fold state is only ever read. -/
def validationPass (fwd : Θ → I → O) (mse : O → O → L) (addL : L → L → L)
    (θ : Θ) (z : L) (samples : List (I × O)) : Θ × L :=
  samples.foldl (fun acc s => (acc.1, addL acc.2 (mse (fwd acc.1 s.1) s.2))) (θ, z)

/-- The training pass of one epoch (source lines 182-196): for each sample
of each chunk, the loss of the current parameters is accumulated and the
parameters are replaced by `optStep` (the external
backward-plus-`OPTIMIZER.step()` update, the program's only
parameter-mutating operation). -/
def trainingPass (optStep : Θ → I × O → Θ) (fwd : Θ → I → O)
    (mse : O → O → L) (addL : L → L → L) (θ : Θ) (z : L)
    (chunks : List (List (I × O))) : Θ × L :=
  chunks.foldl
    (fun acc chunk =>
      chunk.foldl
        (fun acc2 s => (optStep acc2.1 s, addL acc2.2 (mse (fwd acc2.1 s.1) s.2))) acc)
    (θ, z)

/-- One epoch body (source lines 181-210): the training pass followed by
the validation pass, returning the final parameter state and the two
accumulated losses. -/
def epochPasses (optStep : Θ → I × O → Θ) (fwd : Θ → I → O)
    (mse : O → O → L) (addL : L → L → L) (θ : Θ) (z : L)
    (chunks : List (List (I × O))) (evalSamples : List (I × O)) : Θ × L × L :=
  let t := trainingPass optStep fwd mse addL θ z chunks
  let v := validationPass fwd mse addL t.1 z evalSamples
  (v.1, t.2, v.2)

end Passes

/-- The statement of claim C1 as the spec words it, over the embedded
`__init__`: a constructed source is in training mode (`_is_test_dataset =
False`) iff `(stop - start)` exceeds the configured chunk size. -/
def c1ModeClaim : Prop :=
  ∀ start stop : ℕ, start < stop →
    ∀ cfg : DatasetCfg, initDataset CHUNK_SIZE start stop = some cfg →
      (cfg.isTest = false ↔ CHUNK_SIZE < stop - start)

/-- Helper: for a positive configured chunk size and a nonempty range,
`__init__` succeeds, clamps the chunk size exactly as on source lines 48-49,
and always sets `_is_test_dataset = True`: the clamped chunk size never
exceeds `stop - start`, so `(stop - start) // cs ≥ 1` and `bool` of it is
`True`. -/
lemma initDataset_pos (c start stop : ℕ) (hc : 0 < c) (hlt : start < stop) :
    initDataset c start stop =
      some ⟨start, stop, if stop - start < c then stop - start else c, true⟩ := by
  simp only [initDataset]
  by_cases hcl : stop - start < c
  · rw [if_pos hcl, if_neg (by omega : ¬ (stop - start = 0))]
    have hdiv : (stop - start) / (stop - start) = 1 := Nat.div_self (by omega)
    simp [hdiv]
  · rw [if_neg hcl, if_neg (by omega : ¬ (c = 0))]
    have hdiv : 0 < (stop - start) / c := Nat.div_pos (by omega) hc
    have hne : (stop - start) / c ≠ 0 := by omega
    simp [hne]

/-- Claim C1, counterexample: the mode-classification half of the claim is
false.  At `start = 0`, `stop = 81` (the program's own training range) we
have `stop - start = 81 > 9 = CHUNK_SIZE`, so the claim requires training
mode, but line 51 computes `bool(81 // 9) = bool(9) = True`, i.e. test
(evaluation) mode. -/
theorem c1_counterexample : ¬ c1ModeClaim := by
  intro h
  have h2 := h 0 81 (by decide) ⟨0, 81, 9, true⟩ (by decide)
  exact absurd (h2.mpr (by decide)) (by decide)

/-- Claim C1, amended: for every dataset constructed with a positive
configured chunk size and `stop > start`, the clamp behaves as claimed (a
configured chunk size greater than `stop - start` is clamped down to
`stop - start`), but the mode classification always yields evaluation
(test) mode — `bool((stop - start) // cs)` is `True` whenever the clamped
`cs` satisfies `0 < cs ≤ stop - start` — so the source never operates in
training mode, regardless of whether `(stop - start)` exceeds the
configured chunk size. -/
theorem c1_clamp_and_mode (c start stop : ℕ) (hc : 0 < c) (hlt : start < stop) :
    initDataset c start stop =
      some ⟨start, stop, if stop - start < c then stop - start else c, true⟩ :=
  initDataset_pos c start stop hc hlt

/-- Witness for `c1_clamp_and_mode` at the program's configured chunk size
`9` and its training range `[0, 81)`. -/
theorem c1_clamp_and_mode_witness :
    initDataset 9 0 81 = some ⟨0, 81, if 81 - 0 < 9 then 81 - 0 else 9, true⟩ :=
  c1_clamp_and_mode 9 0 81 (by decide) (by decide)

/-- Claim C10: constructing with an empty range (`stop = start`) clamps the
chunk size to `0` and the mode classification `(stop - start) //
self._chunk_size` raises an untyped `ZeroDivisionError` (modelled as
`none`); under the spec's precondition `start < stop` the clamped chunk
size is strictly positive and construction succeeds. -/
theorem c10_empty_range_division :
    (∀ start : ℕ, initDataset CHUNK_SIZE start start = none) ∧
    (∀ start stop : ℕ, start < stop →
      ∃ cfg : DatasetCfg, initDataset CHUNK_SIZE start stop = some cfg ∧
        0 < cfg.chunkSize) := by
  constructor
  · intro s
    simp [initDataset, CHUNK_SIZE]
  · intro s t h
    refine ⟨_, initDataset_pos CHUNK_SIZE s t (by norm_num [CHUNK_SIZE]) h, ?_⟩
    simp only [CHUNK_SIZE]
    split <;> omega

/-- Witness for `c10_empty_range_division`: the empty range `[7, 7)` fails
with the division error, and the nonempty range `[2, 5)` constructs with a
positive clamped chunk size. -/
theorem c10_witness :
    initDataset CHUNK_SIZE 7 7 = none ∧
    ∃ cfg : DatasetCfg, initDataset CHUNK_SIZE 2 5 = some cfg ∧ 0 < cfg.chunkSize :=
  ⟨c10_empty_range_division.1 7, c10_empty_range_division.2 2 5 (by decide)⟩

/-- Claim C3, evaluation at the failing input (code bug): for the range
`[1, 3)` over a table of five data rows `[10, 20, 30, 40, 50]`, the dataset
is in evaluation mode as claimed, but iteration yields the three samples
`[20, 30, 40]` — `_get_gpu_chunk` passes `nrows=stop` (source line 62), a
row *count*, so it reads `stop = 3` rows — whereas the claim (and the
class's own `__len__ = stop - start`) says exactly `3 - 1 = 2` samples,
rows `1..2`. -/
theorem c3_code_eval :
    initDataset CHUNK_SIZE 1 3 = some ⟨1, 3, 2, true⟩ ∧
    testChunk [10, 20, 30, 40, 50] (⟨1, 3, 2, true⟩ : DatasetCfg) = ([20, 30, 40] : List ℕ) ∧
    (testChunk [10, 20, 30, 40, 50] (⟨1, 3, 2, true⟩ : DatasetCfg)).length ≠ 3 - 1 := by
  exact ⟨by decide, by decide, by decide⟩

/-- Claim C2, evaluation at the failing input (code bug): were the
training-mode branch of `__iter__` run on the range `[0, 18)` with chunk
size `9` over a table with data rows `0..18`, it would yield two chunks
that both read rows `0..8` — chunk `i` starts at `i * start = 0` and reads
`i * start + chunk_size = 9` rows (source line 103) — so row `9` of the
range is never yielded and row `0` is yielded twice, contradicting the
claimed exact cover of the range. -/
theorem c2_code_eval :
    trainModeChunks (List.range 19) (⟨0, 18, 9, false⟩ : DatasetCfg) =
      [List.range 9, List.range 9] ∧
    (9 : ℕ) ∉ (trainModeChunks (List.range 19) (⟨0, 18, 9, false⟩ : DatasetCfg)).flatten ∧
    ((trainModeChunks (List.range 19) (⟨0, 18, 9, false⟩ : DatasetCfg)).flatten.count 0) = 2 := by
  exact ⟨by decide, by decide, by decide⟩

/-- Claim C4, amended (the guard condition itself, which the code does
satisfy): the overfitting check raises at the end of an epoch iff at that
point more than 15 validation losses are in the retained history and the
current epoch's loss is strictly greater than every one of the 15 most
recently recorded ones. -/
theorem c4_guard_iff {α : Type} [LinearOrder α] (losses : List α) (current : α) :
    overfitStep losses current = none ↔
      15 < losses.length ∧ ∀ p ∈ losses.drop (losses.length - 15), p < current := by
  unfold overfitStep
  by_cases h15 : 15 < losses.length
  · rw [if_pos h15]
    have hlen : (losses.drop (losses.length - 15)).length = 15 := by
      rw [List.length_drop]; omega
    have key :
        (((losses.drop (losses.length - 15)).filter fun p => decide (p < current)).length = 15)
          ↔ ∀ p ∈ losses.drop (losses.length - 15), p < current := by
      constructor
      · intro hf p hp
        have heq :
            (losses.drop (losses.length - 15)).filter (fun p => decide (p < current)) =
              losses.drop (losses.length - 15) :=
          (List.filter_sublist _).eq_of_length (by rw [hf, hlen])
        exact of_decide_eq_true (List.filter_eq_self.mp heq p hp)
      · intro hall
        have heq :
            (losses.drop (losses.length - 15)).filter (fun p => decide (p < current)) =
              losses.drop (losses.length - 15) :=
          List.filter_eq_self.mpr fun a ha => decide_eq_true (hall a ha)
        rw [heq, hlen]
    by_cases hf :
        (((losses.drop (losses.length - 15)).filter fun p => decide (p < current)).length = 15)
    · rw [if_pos hf]
      exact ⟨fun _ => ⟨h15, key.mp hf⟩, fun _ => rfl⟩
    · rw [if_neg hf]
      constructor
      · intro hcontra
        exact (Option.some_ne_none _ hcontra).elim
      · rintro ⟨-, hall⟩
        exact absurd (key.mpr hall) hf
  · rw [if_neg h15]
    constructor
    · intro hcontra
      exact (Option.some_ne_none _ hcontra).elim
    · rintro ⟨hcontra, -⟩
      exact absurd hcontra h15

/-- Claim C4, counterexample to its final sentence: a run fed 16 strictly
increasing validation losses (`lossOf n = n` over epochs `1..16`) never
triggers the guard — the history stays empty, so `len(test_losses) > 15`
never holds — and even a history holding 15 strictly increasing recorded
losses with a strictly larger 16th current loss does not raise (15 is not
more than 15); the guard also leaves that history unchanged. -/
theorem c4_counterexample :
    (epochLoop (fun n => n) 16 1 ([] : List ℕ)).2 = some [] ∧
    overfitStep ([1, 2, 3, 4, 5, 6, 7, 8, 9, 10, 11, 12, 13, 14, 15] : List ℕ) 16 =
      some [1, 2, 3, 4, 5, 6, 7, 8, 9, 10, 11, 12, 13, 14, 15] := by
  exact ⟨by decide, by decide⟩

/-- Helper: the guard is a no-op on an empty history (`len([]) > 15` is
false, and the append sits inside that branch). -/
lemma overfitStep_nil {α : Type} [LinearOrder α] (c : α) :
    overfitStep ([] : List α) c = some [] := by
  simp [overfitStep]

/-- Helper: starting from an empty history, every epoch leaves the history
empty, so the loop emits all `k` epoch blocks and never aborts. -/
lemma epochLoop_nil {α : Type} [LinearOrder α] (lossOf : ℕ → α) :
    ∀ k n, epochLoop lossOf k n [] = (epochBlocks n k, some []) := by
  intro k
  induction k with
  | zero => intro n; rfl
  | succ k ih =>
    intro n
    simp only [epochLoop, overfitStep_nil, ih (n + 1), epochBlocks]

/-- Helper: the training dataset construction
`ChessDataset(DATASET_PATH, start=0, stop=81)` (source line 168). -/
lemma initTrain_eq :
    initDataset CHUNK_SIZE 0 TRAIN_DATASET_LENGTH = some ⟨0, 81, 9, true⟩ := by
  decide

/-- Helper: the test dataset construction
`ChessDataset(DATASET_PATH, start=81, stop=100081)` (source lines 169-170). -/
lemma initEval_eq :
    initDataset CHUNK_SIZE TRAIN_DATASET_LENGTH (TRAIN_DATASET_LENGTH + TEST_DATASET_LENGTH) =
      some ⟨81, 100081, 9, true⟩ := by
  decide

/-- Helper: the full trace and outcome of a run with a fresh weights
directory and an existing dataset file. -/
lemma mainRun_good {α : Type} [LinearOrder α] (lossOf : ℕ → α) :
    mainRun false true lossOf =
      ([Ev.openLog, Ev.mkdirWeights, Ev.logWrite LogTag.startTime,
          Ev.tableRead 0 81, Ev.tableRead 81 100081]
        ++ epochBlocks 1 NUMBER_OF_EPOCHS ++ [Ev.logWrite LogTag.stopTime],
        Outcome.completed) := by
  have h := epochLoop_nil lossOf NUMBER_OF_EPOCHS 1
  simp [mainRun, initTrain_eq, initEval_eq, h, dsReadEvents]

/-- Helper: decimal digit characters determine the digit. -/
lemma digitChar_inj : ∀ d < 10, ∀ e < 10,
    Char.ofNat (48 + d) = Char.ofNat (48 + e) → d = e := by
  decide

/-- Helper: mapping digits (< 10) to their characters is injective. -/
lemma map_digitChar_inj :
    ∀ l₁ l₂ : List ℕ, (∀ d ∈ l₁, d < 10) → (∀ d ∈ l₂, d < 10) →
      l₁.map (fun d => Char.ofNat (48 + d)) = l₂.map (fun d => Char.ofNat (48 + d)) →
      l₁ = l₂ := by
  intro l₁
  induction l₁ with
  | nil =>
    intro l₂ _ _ h
    cases l₂ with
    | nil => rfl
    | cons b t => simp at h
  | cons a t ih =>
    intro l₂ h₁ h₂ h
    cases l₂ with
    | nil => simp at h
    | cons b t₂ =>
      simp only [List.map_cons, List.cons.injEq] at h
      have ha : a = b :=
        digitChar_inj a (h₁ a (by simp)) b (h₂ b (by simp)) h.1
      have ht : t = t₂ :=
        ih t₂ (fun d hd => h₁ d (by simp [hd])) (fun d hd => h₂ d (by simp [hd])) h.2
      rw [ha, ht]

/-- Helper: `natDigits 0` computes to `['0']`. -/
lemma natDigits_zero : natDigits 0 = ['0'] := rfl

/-- Helper: only `0` renders as the single character `'0'`. -/
lemma natDigits_eq_singleton_zero {m : ℕ} (h : natDigits m = ['0']) : m = 0 := by
  by_cases hm : m = 0
  · exact hm
  · exfalso
    unfold natDigits at h
    rw [if_neg hm] at h
    have h' : (Nat.digits 10 m).map (fun d => Char.ofNat (48 + d)) = ['0'] := by
      have hr := congrArg List.reverse h
      simpa using hr
    cases hd : Nat.digits 10 m with
    | nil => rw [hd] at h'; simp at h'
    | cons d t =>
      rw [hd] at h'
      simp only [List.map_cons, List.cons.injEq] at h'
      have hd10 : d < 10 :=
        Nat.digits_lt_base (by norm_num) (by rw [hd]; exact List.mem_cons_self d t)
      have hd0 : d = 0 :=
        digitChar_inj d hd10 0 (by norm_num) (by rw [h'.1])
      have ht : t = [] := by
        cases t with
        | nil => rfl
        | cons x xs => simp at h'
      have hof := Nat.ofDigits_digits 10 m
      rw [hd, hd0, ht] at hof
      apply hm
      simpa [Nat.ofDigits] using hof.symm

/-- Helper: `natDigits` is injective, hence Python's `str` renders distinct
nonnegative integers as distinct strings. -/
lemma natDigits_inj : ∀ m n : ℕ, natDigits m = natDigits n → m = n := by
  intro m n h
  by_cases hm : m = 0
  · subst hm
    exact (natDigits_eq_singleton_zero (h.symm.trans natDigits_zero)).symm
  · by_cases hn : n = 0
    · subst hn
      exact natDigits_eq_singleton_zero (h.trans natDigits_zero)
    · unfold natDigits at h
      rw [if_neg hm, if_neg hn] at h
      have h' := congrArg List.reverse h
      simp only [List.reverse_reverse] at h'
      have hd := map_digitChar_inj _ _
        (fun d hd => Nat.digits_lt_base (by norm_num) hd)
        (fun d hd => Nat.digits_lt_base (by norm_num) hd) h'
      have h1 := Nat.ofDigits_digits 10 m
      rw [hd] at h1
      exact h1.symm.trans (Nat.ofDigits_digits 10 n)

/-- Helper: checkpoint file names determine the epoch number. -/
lemma cpName_inj : ∀ m n : ℕ, cpName m = cpName n → m = n := by
  intro m n h
  unfold cpName at h
  rw [List.append_assoc, List.append_assoc] at h
  exact natDigits_inj m n (List.append_cancel_right (List.append_cancel_left h))

/-- Helper: membership in the checkpoint-name list. -/
lemma mem_cpList : ∀ k n nm, nm ∈ cpList n k → ∃ i, n ≤ i ∧ i < n + k ∧ nm = cpName i := by
  intro k
  induction k with
  | zero => intro n nm h; simp [cpList] at h
  | succ k ih =>
    intro n nm h
    rw [cpList] at h
    rcases List.mem_cons.mp h with h1 | h2
    · exact ⟨n, le_refl n, by omega, h1⟩
    · obtain ⟨i, hi1, hi2, hi3⟩ := ih (n + 1) nm h2
      exact ⟨i, by omega, by omega, hi3⟩

/-- Helper: the checkpoint names of distinct epochs are pairwise distinct. -/
lemma cpList_nodup : ∀ k n, (cpList n k).Nodup := by
  intro k
  induction k with
  | zero => intro n; simp [cpList]
  | succ k ih =>
    intro n
    rw [cpList]
    refine List.nodup_cons.mpr ⟨?_, ih (n + 1)⟩
    intro hmem
    obtain ⟨i, hi1, hi2, hi3⟩ := mem_cpList k (n + 1) (cpName n) hmem
    have := cpName_inj n i hi3
    omega

/-- Helper: the checkpoint writes of `k` completed epoch blocks are exactly
one per epoch, in epoch order. -/
lemma filterMap_cpOf_epochBlocks :
    ∀ k n, (epochBlocks n k).filterMap cpOf = cpList n k := by
  intro k
  induction k with
  | zero => intro n; rfl
  | succ k ih =>
    intro n
    simp only [epochBlocks, List.filterMap_append, ih (n + 1), cpList]
    rfl

/-- Claim C5: the retained validation-loss history starts empty and losses
are appended only inside the branch guarded by `len(test_losses) > 15`, so
the history stays empty after every epoch, the guard never raises, and a
run with good setup completes all `NUMBER_OF_EPOCHS` epochs. -/
theorem c5_history_never_grows {α : Type} [LinearOrder α] (lossOf : ℕ → α) :
    (∀ c : α, overfitStep ([] : List α) c = some []) ∧
    (∀ k n, epochLoop lossOf k n [] = (epochBlocks n k, some [])) ∧
    (mainRun false true lossOf).2 = Outcome.completed := by
  refine ⟨fun c => overfitStep_nil c, epochLoop_nil lossOf, ?_⟩
  rw [mainRun_good lossOf]

/-- Claim C6: if the weights directory already exists, or the dataset file
does not, the run ends in the corresponding fatal setup error and its
trace contains no training pass, no checkpoint write, and no per-epoch log
line. -/
theorem c6_setup_error {α : Type} [LinearOrder α] (lossOf : ℕ → α)
    (dirExists datasetExists : Bool)
    (h : dirExists = true ∨ datasetExists = false) :
    ((mainRun dirExists datasetExists lossOf).2 = Outcome.alreadyTrained ∨
      (mainRun dirExists datasetExists lossOf).2 = Outcome.datasetMissing) ∧
    (∀ n, Ev.trainPass n ∉ (mainRun dirExists datasetExists lossOf).1) ∧
    (∀ nm, Ev.checkpointWrite nm ∉ (mainRun dirExists datasetExists lossOf).1) ∧
    (∀ n, Ev.logWrite (LogTag.epochLine n) ∉ (mainRun dirExists datasetExists lossOf).1) := by
  rcases h with h | h
  · subst h
    refine ⟨Or.inl rfl, ?_, ?_, ?_⟩ <;> intro x <;> simp [mainRun]
  · subst h
    cases dirExists
    · refine ⟨Or.inr rfl, ?_, ?_, ?_⟩ <;> intro x <;> simp [mainRun]
    · refine ⟨Or.inl rfl, ?_, ?_, ?_⟩ <;> intro x <;> simp [mainRun]

/-- Witness for `c6_setup_error` with a pre-existing weights directory. -/
theorem c6_witness :
    ((mainRun true true (fun _ => (0 : ℕ))).2 = Outcome.alreadyTrained ∨
      (mainRun true true (fun _ => (0 : ℕ))).2 = Outcome.datasetMissing) ∧
    (∀ n, Ev.trainPass n ∉ (mainRun true true (fun _ => (0 : ℕ))).1) ∧
    (∀ nm, Ev.checkpointWrite nm ∉ (mainRun true true (fun _ => (0 : ℕ))).1) ∧
    (∀ n, Ev.logWrite (LogTag.epochLine n) ∉ (mainRun true true (fun _ => (0 : ℕ))).1) :=
  c6_setup_error (fun _ => 0) true true (Or.inl rfl)

/-- Claim C7: a good-setup run completes, its trace's checkpoint writes are
exactly one per epoch `1 .. NUMBER_OF_EPOCHS` in order, each named
`model_epoch_{n}.pt` for its epoch number, and the names are pairwise
distinct — no checkpoint name is ever written twice (and the program has
no delete operation at all, see `Ev`). -/
theorem c7_checkpoints {α : Type} [LinearOrder α] (lossOf : ℕ → α) :
    (mainRun false true lossOf).2 = Outcome.completed ∧
    (mainRun false true lossOf).1.filterMap cpOf = cpList 1 NUMBER_OF_EPOCHS ∧
    (cpList 1 NUMBER_OF_EPOCHS).Nodup := by
  refine ⟨?_, ?_, cpList_nodup NUMBER_OF_EPOCHS 1⟩
  · rw [mainRun_good lossOf]
  · rw [mainRun_good lossOf]
    simp [List.filterMap_append, filterMap_cpOf_epochBlocks, cpOf]

/-- Claim C8: the validation pass leaves the model's learnable parameter
state unchanged — its fold only reads the parameter component — so the
parameter state after a full epoch is exactly the one produced by the
training pass's optimizer steps. -/
theorem c8_validation_frame {Θ I O L : Type} (optStep : Θ → I × O → Θ)
    (fwd : Θ → I → O) (mse : O → O → L) (addL : L → L → L) (θ : Θ) (z : L)
    (chunks : List (List (I × O))) (evalSamples : List (I × O)) :
    (validationPass fwd mse addL θ z evalSamples).1 = θ ∧
    (epochPasses optStep fwd mse addL θ z chunks evalSamples).1 =
      (trainingPass optStep fwd mse addL θ z chunks).1 := by
  have key : ∀ (samples : List (I × O)) (θ0 : Θ) (z0 : L),
      (validationPass fwd mse addL θ0 z0 samples).1 = θ0 := by
    intro samples
    induction samples with
    | nil => intro θ0 z0; rfl
    | cons s rest ih =>
      intro θ0 z0
      exact ih θ0 (addL z0 (mse (fwd θ0 s.1) s.2))
  exact ⟨key evalSamples θ z, key evalSamples _ z⟩

/-- Claim C9: setup failure is not atomic.  The log file is opened (created
under its fresh random name) at module scope, before any setup validation;
the weights directory is created before the dataset-existence check; so a
run aborting on a missing dataset leaves exactly those two artefacts
behind — its whole trace is `[openLog, mkdirWeights]`, with no checkpoint
ever written into the new directory. -/
theorem c9_setup_not_atomic {α : Type} [LinearOrder α] (lossOf : ℕ → α) :
    mainRun false false lossOf = ([Ev.openLog, Ev.mkdirWeights], Outcome.datasetMissing) ∧
    (∀ nm, Ev.checkpointWrite nm ∉ (mainRun false false lossOf).1) := by
  refine ⟨rfl, ?_⟩
  intro nm
  simp [mainRun]

end ChessTrain
